import Mathlib

/-! Verification development for the node-saga-pm workflow orchestration engine.

Part 1: the workflow-definition validator (src/unnamed/part_000, first file:
`workflowDefinition.ts`).

Dynamic JavaScript values reached through `R.path` / `R.pathOr` are modelled
by `JsVal` (a missing path yields `JsVal.undefined`); `R.is(Number)` and
`R.is(String)` become `isNumber` / `isString`.
-/
/-- A dynamic JavaScript value as observed by the validator's `R.path`
lookups: absent (`undefined`), a number, or a string. -/
inductive JsVal where
  | undefined : JsVal
  | num : Int → JsVal
  | str : String → JsVal
deriving DecidableEq, Repr

/-- Translation of `R.is(Number)` on a dynamic value. -/
def isNumber : JsVal → Bool
  | .num _ => true
  | _ => false

/-- Translation of `R.is(String)` on a dynamic value. -/
def isString : JsVal → Bool
  | .str _ => true
  | _ => false

/-- Modelled from the spec: `isValidName` lives in `utils/common`, which is
not under src/; the spec (§4.1) only says a name "matches the name regex".
Modelled as a non-empty string of at most 64 ASCII letters, digits, hyphens
and underscores. -/
def isValidName (name : String) : Bool :=
  decide (0 < name.length) && decide (name.length ≤ 64) &&
    name.toList.all (fun c => c.isAlphanum || c = '-' || c = '_')

/-- Modelled from the spec: `isValidRev` lives in `utils/common`, which is
not under src/. In this file's interface a revision is a number
(`rev: number`), so a valid revision is modelled as a numeric value. -/
def isValidRev (rev : JsVal) : Bool := isNumber rev

/-- Task-node kinds (`TaskTypes` in `constants/task`). -/
inductive TaskTypes where
  | Task : TaskTypes
  | Parallel : TaskTypes
  | SubWorkflow : TaskTypes
  | Decision : TaskTypes
  | Schedule : TaskTypes
  | Compensate : TaskTypes
deriving DecidableEq, Repr

/-- Modelled from the spec: `TaskTypesList` comes from `constants/task`,
which is not under src/; the spec's data model (§3) lists exactly these
task-instance types. -/
def TaskTypesList : List TaskTypes :=
  [.Task, .Parallel, .SubWorkflow, .Decision, .Schedule, .Compensate]

/-- Enum `FailureStrategies` from `constants/workflow`. -/
inductive FailureStrategies where
  | Failed : FailureStrategies
  | Retry : FailureStrategies
  | Compensate : FailureStrategies
  | CompensateThenRetry : FailureStrategies
  | RecoveryWorkflow : FailureStrategies
deriving DecidableEq, Repr

/-- Type `AllTaskType`: the sum of `ITask`, `IParallelTask`, `ISubWorkflowTask`
and `IDecisionTask` (the `type` discriminant becomes the constructor). -/
inductive AllTaskType where
  | task (name taskReferenceName : String) : AllTaskType
  | parallel (name taskReferenceName : String)
      (parallelTasks : List (List AllTaskType)) : AllTaskType
  | subWorkflow (name taskReferenceName : String) (wfName : String)
      (wfRev : JsVal) : AllTaskType
  | decision (name taskReferenceName : String)
      (decisions : List (String × List AllTaskType))
      (defaultDecision : List AllTaskType) : AllTaskType
deriving Repr

/-- The `name` field of a task node. -/
def nameOf : AllTaskType → String
  | .task n _ => n
  | .parallel n _ _ => n
  | .subWorkflow n _ _ _ => n
  | .decision n _ _ _ => n

/-- The `taskReferenceName` field of a task node. -/
def refNameOf : AllTaskType → String
  | .task _ r => r
  | .parallel _ r _ => r
  | .subWorkflow _ r _ _ => r
  | .decision _ r _ _ => r

/-- The `type` field of a task node. -/
def typeOf : AllTaskType → TaskTypes
  | .task _ _ => .Task
  | .parallel _ _ _ => .Parallel
  | .subWorkflow _ _ _ _ => .SubWorkflow
  | .decision _ _ _ _ => .Decision

/-- Structure `RetryConf`: the `retry { limit, delaySecond }` block of a definition.
Fields are dynamic values because the validator inspects them with
`R.path` + `R.is(Number)`. -/
structure RetryConf where
  limit : JsVal
  delaySecond : JsVal
deriving DecidableEq, Repr

/-- The `recoveryWorkflow { name, rev }` block of a definition. -/
structure RecoveryWorkflowConf where
  name : JsVal
  rev : JsVal
deriving DecidableEq, Repr

/-- Structure `IWorkflowDefinition` from `workflowDefinition.ts`. -/
structure IWorkflowDefinition where
  name : String
  rev : JsVal
  tasks : List AllTaskType
  failureStrategy : Option FailureStrategies
  retry : Option RetryConf
  recoveryWorkflow : Option RecoveryWorkflowConf
deriving Repr

/-- Lookup `R.path(['recoveryWorkflow', 'name'], workflowDefinition)`. -/
def recoveryNamePath (wd : IWorkflowDefinition) : JsVal :=
  match wd.recoveryWorkflow with
  | some r => r.name
  | none => .undefined

/-- Lookup `R.path(['recoveryWorkflow', 'rev'], workflowDefinition)`. -/
def recoveryRevPath (wd : IWorkflowDefinition) : JsVal :=
  match wd.recoveryWorkflow with
  | some r => r.rev
  | none => .undefined

/-- Lookup `R.path(['retry', 'limit'], workflowDefinition)`. -/
def retryLimitPath (wd : IWorkflowDefinition) : JsVal :=
  match wd.retry with
  | some r => r.limit
  | none => .undefined

/-- Lookup `R.path(['retry', 'delaySecond'], workflowDefinition)`. -/
def retryDelaySecondPath (wd : IWorkflowDefinition) : JsVal :=
  match wd.retry with
  | some r => r.delaySecond
  | none => .undefined

/-- Translation of `isRecoveryWorkflowConfigValid` (despite its name it is true when the
recovery-workflow config is BAD): failureStrategy is RecoveryWorkflow and
`recoveryWorkflow.name` is not a string or `recoveryWorkflow.rev` is not a
number. -/
def isRecoveryWorkflowConfigValid (wd : IWorkflowDefinition) : Bool :=
  if wd.failureStrategy = some .RecoveryWorkflow then
    !isString (recoveryNamePath wd) || !isNumber (recoveryRevPath wd)
  else false

/-- Translation of `isFailureStrategiesConfigValid` (true when the retry config is BAD):
failureStrategy is Retry and `retry.limit` or `retry.delaySecond` is not a
number. -/
def isFailureStrategiesConfigValid (wd : IWorkflowDefinition) : Bool :=
  if wd.failureStrategy = some .Retry then
    !isNumber (retryLimitPath wd) || !isNumber (retryDelaySecondPath wd)
  else false

/-- Translation of `isEmptyTasks`. -/
def isEmptyTasks (wd : IWorkflowDefinition) : Bool := wd.tasks.isEmpty

/-- Translation of `workflowValidation`: the five top-level checks, each conditionally
pushing one path-qualified message (a JS `errors.push(x)` is rendered as
appending `[x]`). -/
def workflowValidation (wd : IWorkflowDefinition) : List String :=
  (if isValidName wd.name then [] else ["workflowDefinition.name is invalid"])
    ++ (if isValidRev wd.rev then [] else ["workflowDefinition.rev is invalid"])
    ++ (if isRecoveryWorkflowConfigValid wd then
          ["workflowDefinition.recoveryWorkflow is invalid"] else [])
    ++ (if isFailureStrategiesConfigValid wd then
          ["workflowDefinition.retry is invalid"] else [])
    ++ (if isEmptyTasks wd then ["workflowDefinition.tasks cannot be empty"] else [])

/-- Structure `TasksValidateOutput`: the accumulator threaded through `validateTasks`.
The JS object `taskReferenceNames` is modelled as an association list. -/
structure TasksValidateOutput where
  errors : List String
  taskReferenceNames : List (String × String)
deriving DecidableEq, Repr

/-- The OWN-property part of the JS read `obj[key]` on the modelled plain
object (first binding wins); the full read, with the `Object.prototype`
fallback a plain object literal inherits, is `truthyRead` below. -/
def mapLookup : List (String × String) → String → Option String
  | [], _ => none
  | (k, v) :: rest, key => if k = key then some v else mapLookup rest key

/-- Property write `obj[key] = v` on the modelled JS object: replace the
first own binding of `key`, or append a new one. (The validator only
assigns a key whose read was falsy, so never an `Object.prototype` member
name — in particular never `__proto__`, whose JS assignment semantics
would differ.) -/
def mapAssign : List (String × String) → String → String → List (String × String)
  | [], k, v => [(k, v)]
  | (k0, v0) :: rest, k, v =>
      if k0 = k then (k0, v) :: rest else (k0, v0) :: mapAssign rest k v

/-- JS truthiness of an own-property read: `undefined` and the empty
string are falsy; every other string is truthy. -/
def truthy : Option String → Bool
  | none => false
  | some s => !(s = "")

/-- The own property names of `Object.prototype` (Node): a plain object
literal `{}` inherits all of them through its prototype chain. -/
def objectPrototypeKeys : List String :=
  ["constructor", "hasOwnProperty", "isPrototypeOf", "propertyIsEnumerable",
   "toLocaleString", "toString", "valueOf", "__proto__",
   "__defineGetter__", "__defineSetter__", "__lookupGetter__",
   "__lookupSetter__"]

/-- JS truthiness of the full property read `obj[key]` on the
duplicate-tracking object: an own binding is truthy unless its stored value
is the empty string; with no own binding the read falls through to the
`Object.prototype` chain, whose members are functions (or, for
`__proto__`, an object) and therefore truthy. -/
def truthyRead (m : List (String × String)) (key : String) : Bool :=
  match mapLookup m key with
  | some s => !(s = "")
  | none => objectPrototypeKeys.contains key

/-- The first four checks of the reducer inside `validateTasks`, shared by
every node kind: `name` validity, `taskReferenceName` validity, the
truthiness-based duplicate check — a read through the prototype chain,
recording the name in the seen-object on the else branch — and the `type`
check. -/
def baseChecks (t : AllTaskType) (currentRoot : String)
    (acc : TasksValidateOutput) : TasksValidateOutput :=
  let errs1 := acc.errors ++
    (if isValidName (nameOf t) then [] else [currentRoot ++ ".name is invalid"])
  let errs2 := errs1 ++
    (if isValidName (refNameOf t) then []
     else [currentRoot ++ ".taskReferenceName is invalid"])
  let isDup := truthyRead acc.taskReferenceNames (refNameOf t)
  let errs3 := errs2 ++
    (if isDup then [currentRoot ++ ".taskReferenceName is duplicated"] else [])
  let names3 :=
    if isDup then acc.taskReferenceNames
    else mapAssign acc.taskReferenceNames (refNameOf t) (refNameOf t)
  let errs4 := errs3 ++
    (if TaskTypesList.contains (typeOf t) then []
     else [currentRoot ++ ".type is invalid"])
  { errors := errs4, taskReferenceNames := names3 }

mutual

/-- The body of the reducer inside `validateTasks`, for one task node at
path `currentRoot`: the shared `baseChecks`, then the Decision / Parallel /
SubWorkflow specific parts. -/
def validateOne (t : AllTaskType) (currentRoot : String)
    (acc : TasksValidateOutput) : TasksValidateOutput :=
  let acc4 := baseChecks t currentRoot acc
  match t with
  | .task _ _ => acc4
  | .subWorkflow _ _ wfName wfRev =>
      { errors := acc4.errors
          ++ (if isValidName wfName then []
              else [currentRoot ++ ".workflow.name is invalid"])
          ++ (if isValidRev wfRev then []
              else [currentRoot ++ ".workflow.rev is invalid"]),
        taskReferenceNames := acc4.taskReferenceNames }
  | .parallel _ _ lanes =>
      validateLanes lanes currentRoot 0 acc4
  | .decision _ _ ds dd =>
      validateDecisions ds currentRoot
        (validateTasksAux dd (currentRoot ++ ".defaultDecision") 0
          { errors := acc4.errors
              ++ (if dd.isEmpty then [currentRoot ++ ".defaultDecision cannot be empty"]
                  else []),
            taskReferenceNames := acc4.taskReferenceNames })

/-- The `tasks.reduce` of `validateTasks`, with the running index made
explicit. -/
def validateTasksAux (ts : List AllTaskType) (root : String) (idx : Nat)
    (acc : TasksValidateOutput) : TasksValidateOutput :=
  match ts with
  | [] => acc
  | t :: rest =>
      validateTasksAux rest root (idx + 1)
        (validateOne t (root ++ ".tasks[" ++ Nat.repr idx ++ "]") acc)

/-- The `parallelTasks.reduce` of the Parallel branch. -/
def validateLanes (lanes : List (List AllTaskType)) (currentRoot : String)
    (idx : Nat) (acc : TasksValidateOutput) : TasksValidateOutput :=
  match lanes with
  | [] => acc
  | lane :: rest =>
      validateLanes rest currentRoot (idx + 1)
        (validateTasksAux lane
          (currentRoot ++ ".parallelTasks[" ++ Nat.repr idx ++ "]") 0 acc)

/-- The `getTaskDecisions(task).reduce` of the Decision branch
(`R.toPairs` preserves key insertion order). -/
def validateDecisions (ds : List (String × List AllTaskType))
    (currentRoot : String) (acc : TasksValidateOutput) : TasksValidateOutput :=
  match ds with
  | [] => acc
  | (d, dts) :: rest =>
      validateDecisions rest currentRoot
        (validateTasksAux dts
          (currentRoot ++ ".decisions[\"" ++ d ++ "\"]") 0 acc)

end

/-- Translation of `validateTasks(tasks, root, defaultResult)`. -/
def validateTasks (tasks : List AllTaskType) (root : String)
    (defaultResult : TasksValidateOutput) : TasksValidateOutput :=
  validateTasksAux tasks root 0 defaultResult

/-- The `WorkflowDefinition` constructor: run `workflowValidation` and
`validateTasks`; throw (here: `Except.error`) when any error was collected,
otherwise keep the definition. -/
def WorkflowDefinition.construct (wd : IWorkflowDefinition) :
    Except String IWorkflowDefinition :=
  let r := validateTasks wd.tasks "workflowDefinition"
    { errors := workflowValidation wd, taskReferenceNames := [] }
  if r.errors.length ≠ 0 then .error (String.intercalate "\n" r.errors)
  else .ok wd

/-! Reference (spec-level) description of the duplicate bookkeeping of
`validateTasks`, used to characterise it: the association-list object is
abstracted to the set of taskReferenceNames whose stored value is truthy,
i.e. the non-empty ones already visited.
-/
/-- The keys of the modelled JS object whose stored value is truthy. -/
def truthyKeys (m : List (String × String)) : List String :=
  (m.filter (fun p => truthy (some p.2))).map Prod.fst

/-- One visit of a `taskReferenceName` in the reference description: a
name already seen — or shadowed by an always-truthy `Object.prototype`
member — leaves the seen-set unchanged, and a fresh name is recorded
unless it is the (falsy) empty string. -/
def seenStep (seen : List String) (r : String) : List String :=
  if r ∈ seen ∨ r ∈ objectPrototypeKeys then seen
  else if r = "" then seen else seen ++ [r]

mutual

/-- Seen-set evolution across one task node, children included (node first,
then defaultDecision, then decision branches; lanes in order). -/
def seenTask (t : AllTaskType) (seen : List String) : List String :=
  match t with
  | .task _ _ => seenStep seen (refNameOf t)
  | .subWorkflow _ _ _ _ => seenStep seen (refNameOf t)
  | .parallel _ r lanes => seenLanes lanes (seenStep seen r)
  | .decision _ r ds dd => seenDecs ds (seenList dd (seenStep seen r))

/-- Seen-set evolution across a task list. -/
def seenList (ts : List AllTaskType) (seen : List String) : List String :=
  match ts with
  | [] => seen
  | t :: rest => seenList rest (seenTask t seen)

/-- Seen-set evolution across parallel lanes. -/
def seenLanes (lanes : List (List AllTaskType)) (seen : List String) : List String :=
  match lanes with
  | [] => seen
  | lane :: rest => seenLanes rest (seenList lane seen)

/-- Seen-set evolution across decision branches. -/
def seenDecs (ds : List (String × List AllTaskType)) (seen : List String) : List String :=
  match ds with
  | [] => seen
  | (_, dts) :: rest => seenDecs rest (seenList dts seen)

end

/-- Reference description of the errors emitted by `baseChecks`, given the
set of non-empty taskReferenceNames already seen: in particular
`currentRoot ++ ".taskReferenceName is duplicated"` is emitted exactly when
the node's taskReferenceName is in that set or is an `Object.prototype`
member name (whose inherited read is truthy even on a first occurrence). -/
def specBaseErrors (t : AllTaskType) (currentRoot : String) (seen : List String) :
    List String :=
  (if isValidName (nameOf t) then [] else [currentRoot ++ ".name is invalid"])
    ++ (if isValidName (refNameOf t) then []
        else [currentRoot ++ ".taskReferenceName is invalid"])
    ++ (if refNameOf t ∈ seen ∨ refNameOf t ∈ objectPrototypeKeys then
          [currentRoot ++ ".taskReferenceName is duplicated"] else [])
    ++ (if TaskTypesList.contains (typeOf t) then []
        else [currentRoot ++ ".type is invalid"])

mutual

/-- Reference description of the errors `validateOne` emits for one node. -/
def specTaskErrors (t : AllTaskType) (currentRoot : String) (seen : List String) :
    List String :=
  specBaseErrors t currentRoot seen
    ++ (match t with
        | .task _ _ => []
        | .subWorkflow _ _ wfName wfRev =>
            (if isValidName wfName then []
             else [currentRoot ++ ".workflow.name is invalid"])
              ++ (if isValidRev wfRev then []
                  else [currentRoot ++ ".workflow.rev is invalid"])
        | .parallel _ r lanes =>
            specLanesErrors lanes currentRoot 0 (seenStep seen r)
        | .decision _ r ds dd =>
            (if dd.isEmpty then [currentRoot ++ ".defaultDecision cannot be empty"]
             else [])
              ++ specListErrors dd (currentRoot ++ ".defaultDecision") 0
                  (seenStep seen r)
              ++ specDecsErrors ds currentRoot (seenList dd (seenStep seen r)))

/-- Reference description of the errors emitted for a task list. -/
def specListErrors (ts : List AllTaskType) (root : String) (idx : Nat)
    (seen : List String) : List String :=
  match ts with
  | [] => []
  | t :: rest =>
      specTaskErrors t (root ++ ".tasks[" ++ Nat.repr idx ++ "]") seen
        ++ specListErrors rest root (idx + 1) (seenTask t seen)

/-- Reference description of the errors emitted for parallel lanes. -/
def specLanesErrors (lanes : List (List AllTaskType)) (currentRoot : String)
    (idx : Nat) (seen : List String) : List String :=
  match lanes with
  | [] => []
  | lane :: rest =>
      specListErrors lane (currentRoot ++ ".parallelTasks[" ++ Nat.repr idx ++ "]")
          0 seen
        ++ specLanesErrors rest currentRoot (idx + 1) (seenList lane seen)

/-- Reference description of the errors emitted for decision branches. -/
def specDecsErrors (ds : List (String × List AllTaskType)) (currentRoot : String)
    (seen : List String) : List String :=
  match ds with
  | [] => []
  | (d, dts) :: rest =>
      specListErrors dts (currentRoot ++ ".decisions[\"" ++ d ++ "\"]") 0 seen
        ++ specDecsErrors rest currentRoot (seenList dts seen)

end

/-- Every binding of the duplicate-tracking object stores the key itself
(`result.taskReferenceNames[r] = r`). -/
def selfMap (m : List (String × String)) : Prop := ∀ p ∈ m, p.2 = p.1

/-- A workflow definition with `failureStrategy = Retry` and a NEGATIVE
`retry.limit` (and `delaySecond = 0`): both are numbers, so the validator
accepts it. -/
def negativeRetryDefinition : IWorkflowDefinition :=
  { name := "name", rev := .num 1, tasks := [.task "t1" "t1"],
    failureStrategy := some .Retry,
    retry := some { limit := .num (-1), delaySecond := .num 0 },
    recoveryWorkflow := none }

/-- A workflow definition with `failureStrategy = RecoveryWorkflow` whose
`recoveryWorkflow.name` is the string `"!!!"`, which matches no name
regex. -/
def badRecoveryNameDefinition : IWorkflowDefinition :=
  { name := "name", rev := .num 1, tasks := [.task "t1" "t1"],
    failureStrategy := some .RecoveryWorkflow,
    retry := none,
    recoveryWorkflow := some { name := .str "!!!", rev := .num 1 } }

/-! Part 2: `TransactionInstanceRedisStore` (src/unnamed/part_001).

The Redis client is modelled as an association list from keys to stored
transactions (`JSON.stringify`/`JSON.parse` round-tripping is identity on
the value space, spec §8, so values are stored unserialised). Each store
method returns its result (`Except` for a method that can throw) together
with the client state after the call. `Date.now()` becomes an explicit
`now` argument.
-/
/-- Transaction statuses (`State.TransactionStates`). -/
inductive TransactionStates where
  | Running : TransactionStates
  | Paused : TransactionStates
  | Completed : TransactionStates
  | Failed : TransactionStates
  | Cancelled : TransactionStates
  | Compensated : TransactionStates
deriving DecidableEq, Repr

/-- Printed form of a status, used inside error messages. -/
def TransactionStates.text : TransactionStates → String
  | .Running => "RUNNING"
  | .Paused => "PAUSED"
  | .Completed => "COMPLETED"
  | .Failed => "FAILED"
  | .Cancelled => "CANCELLED"
  | .Compensated => "COMPENSATED"

/-- Modelled from the spec: `State.TransactionNextStates` comes from the
melonade-declaration package, which is not under src/. From the spec's
lifecycle (§3): a Running transaction may pause or reach any terminal
status (Completed, Failed, Cancelled, Compensated — scenario 4 shows
Running → Compensated); a Paused one may resume or be cancelled; a
terminal transaction is immutable. -/
def TransactionNextStates : TransactionStates → List TransactionStates
  | .Running => [.Paused, .Completed, .Failed, .Cancelled, .Compensated]
  | .Paused => [.Running, .Cancelled]
  | .Completed => []
  | .Failed => []
  | .Cancelled => []
  | .Compensated => []

/-- Structure `Transaction.ITransaction` (the fields the store touches). -/
structure ITransaction where
  transactionId : String
  status : TransactionStates
  output : Option String
  endTime : Option Nat
  createTime : Nat
deriving DecidableEq, Repr

/-- Structure `Event.ITransactionUpdate`. -/
structure ITransactionUpdate where
  transactionId : String
  status : TransactionStates
  output : Option String
deriving DecidableEq, Repr

/-- The Redis keyspace reachable through this store. -/
abbrev RedisKV := List (String × ITransaction)

/-- Operation `client.get`. -/
def kvGet : RedisKV → String → Option ITransaction
  | [], _ => none
  | (k, v) :: rest, key => if k = key then some v else kvGet rest key

/-- Operation `client.set`: overwrite the binding, or append a new one. -/
def kvSet : RedisKV → String → ITransaction → RedisKV
  | [], key, v => [(key, v)]
  | (k0, v0) :: rest, key, v =>
      if k0 = key then (key, v) :: rest else (k0, v0) :: kvSet rest key v

/-- Operation `client.setnx`: set only if the key is absent; returns whether it was
set, with the resulting keyspace. -/
def kvSetnx (kv : RedisKV) (key : String) (v : ITransaction) : Bool × RedisKV :=
  match kvGet kv key with
  | some _ => (false, kv)
  | none => (true, kv ++ [(key, v)])

/-- The key `` `${prefix}.transaction.${transactionId}` `` (the configured
prefix, which comes from config and not src/, is fixed to `"melonade"`). -/
def transactionKey (transactionId : String) : String :=
  "melonade.transaction." ++ transactionId

/-- Translation of `TransactionInstanceRedisStore.create`: `setnx` the serialised
transaction; when the key was already present (`isSet !== 1`) throw
`Transaction "<id>" already exists`. -/
def TransactionInstanceRedisStore.create (kv : RedisKV)
    (transaction : ITransaction) : Except String ITransaction × RedisKV :=
  let r := kvSetnx kv (transactionKey transaction.transactionId) transaction
  if r.1 then (.ok transaction, r.2)
  else (.error ("Transaction \"" ++ transaction.transactionId ++ "\" already exists"), r.2)

/-- The `updatedTransaction` object literal inside `update`: new status and
output; `endTime` is `Date.now()` when the new status is Completed or
Failed, and `null` otherwise. -/
def updatedTransaction (transaction : ITransaction) (u : ITransactionUpdate)
    (now : Nat) : ITransaction :=
  { transaction with
    status := u.status
    output := u.output
    endTime :=
      if u.status = .Completed ∨ u.status = .Failed then some now else none }

/-- Translation of `TransactionInstanceRedisStore.update`: read the stored transaction
(`not found` when absent), reject a status not allowed by
`TransactionNextStates`, otherwise write back the updated transaction. -/
def TransactionInstanceRedisStore.update (kv : RedisKV)
    (u : ITransactionUpdate) (now : Nat) : Except String ITransaction × RedisKV :=
  let key := transactionKey u.transactionId
  match kvGet kv key with
  | none => (.error ("Transaction \"" ++ u.transactionId ++ "\" not found"), kv)
  | some transaction =>
      if (TransactionNextStates transaction.status).contains u.status then
        let updated := updatedTransaction transaction u now
        (.ok updated, kvSet kv key updated)
      else
        (.error ("Cannot change status of \"" ++ transaction.transactionId ++
          "\" from " ++ transaction.status.text ++ " to " ++ u.status.text), kv)

/-- Translation of `TransactionInstanceRedisStore.get`: the parsed stored transaction, or
`null` when the key is absent — no error is raised. -/
def TransactionInstanceRedisStore.get (kv : RedisKV)
    (transactionId : String) : Option ITransaction :=
  kvGet kv (transactionKey transactionId)

/-- A keyspace holding one Running transaction `tx1`. -/
def runningTx : ITransaction :=
  { transactionId := "tx1", status := .Running, output := none,
    endTime := none, createTime := 7 }

/-- The keyspace used by the concrete store scenarios. -/
def oneTxKV : RedisKV := [(transactionKey "tx1", runningTx)]

/-! Part 3: the state engine (C4/C5 of the spec's component list).

Modelled from the spec: the engine source (`src/state.ts` and the instance
stores it drives) is not under src/ — only its Jest test suite is
(src/unnamed/part_000, second file). The model below follows spec §4.2
(task transition table, advancing a workflow) and §4.3 (task-level retry,
failure strategies) for sequential workflows, which is the shape the test
suite exercises; its behaviour matches the events / dispatches / store-call
counts the tests assert. Only the `Failed` and `Compensate` strategies are
modelled in the exhaustion branch (the other strategies fall to the
`Failed` branch and are not referenced by any theorem).
-/
/-- Task statuses (`State.TaskStates`). -/
inductive TaskStates where
  | Scheduled : TaskStates
  | Inprogress : TaskStates
  | Completed : TaskStates
  | Failed : TaskStates
  | AckTimeOut : TaskStates
  | Timeout : TaskStates
deriving DecidableEq, Repr

/-- Workflow statuses (`State.WorkflowStates`). -/
inductive WorkflowStates where
  | Running : WorkflowStates
  | Paused : WorkflowStates
  | Completed : WorkflowStates
  | Failed : WorkflowStates
  | Cancelled : WorkflowStates
  | Timeout : WorkflowStates
deriving DecidableEq, Repr

/-- Workflow instance types (`Workflow.WorkflowTypes`). -/
inductive WorkflowTypes where
  | Workflow : WorkflowTypes
  | CompensateWorkflow : WorkflowTypes
  | CompensateThenRetryWorkflow : WorkflowTypes
  | RetryWorkflow : WorkflowTypes
  | RecoveryWorkflow : WorkflowTypes
  | SubWorkflow : WorkflowTypes
deriving DecidableEq, Repr

/-- Modelled from the spec: the task transition table of §4.2 — from
Scheduled everything is reachable (Completed directly for system tasks);
from Inprogress only Completed, Failed and Timeout; terminal statuses admit
nothing. -/
def taskNextStates : TaskStates → List TaskStates
  | .Scheduled => [.Inprogress, .Completed, .Failed, .AckTimeOut, .Timeout]
  | .Inprogress => [.Completed, .Failed, .Timeout]
  | .Completed => []
  | .Failed => []
  | .AckTimeOut => []
  | .Timeout => []

/-- A (sequential) task node of the effective workflow definition, with the
retry limit the engine reads on failure. -/
structure TaskDefn where
  name : String
  taskReferenceName : String
  taskType : TaskTypes
  retryLimit : Nat
deriving DecidableEq, Repr

/-- A task instance: §3's TaskInstance restricted to the fields the claims
touch (`taskId`, names, type, status, `retries` and its limit). -/
structure TaskInst where
  taskId : Nat
  taskName : String
  taskReferenceName : String
  taskType : TaskTypes
  status : TaskStates
  retries : Nat
  retryLimit : Nat
deriving DecidableEq, Repr

/-- An emitted domain event (`sendEvent`): the payload fields the tests
assert on. -/
inductive EventRec where
  | task (taskReferenceName : String) (taskType : TaskTypes)
      (status : TaskStates) : EventRec
  | workflow (wfType : WorkflowTypes) (status : WorkflowStates) : EventRec
  | transaction (status : TransactionStates) : EventRec
  | error : EventRec
deriving DecidableEq, Repr

/-- A `dispatch` record sent to the bus for worker consumption. -/
structure DispatchRec where
  taskReferenceName : String
  taskType : TaskTypes
  status : TaskStates
deriving DecidableEq, Repr

/-- The persisted state of one transaction as the engine sees it: the
transaction status, the active workflow instance (type, status, effective
sequential definition, index of the next definition task to schedule), the
live task instance, the Completed task instances in completion order, the
statuses of replaced workflow instances, and a fresh-taskId counter. -/
structure EngineState where
  txStatus : TransactionStates
  wfType : WorkflowTypes
  wfStatus : WorkflowStates
  failureStrategy : FailureStrategies
  defTasks : List TaskDefn
  nextIdx : Nat
  current : Option TaskInst
  done : List TaskInst
  archived : List (WorkflowTypes × WorkflowStates)
  nextTaskId : Nat
deriving DecidableEq, Repr

/-- The observable effects of processing one task update: events in
emission order, dispatches, and the `taskInstanceStore.create` /
`taskInstanceStore.reload` / `workflowInstanceStore.create` call counts the
tests spy on. -/
structure StepOutput where
  events : List EventRec
  dispatches : List DispatchRec
  taskCreates : Nat
  taskReloads : Nat
  workflowCreates : Nat
deriving DecidableEq, Repr

/-- A fresh Scheduled task instance for a definition task
(`taskInstanceStore.create`). -/
def mkScheduled (d : TaskDefn) (taskId : Nat) : TaskInst :=
  { taskId := taskId, taskName := d.name,
    taskReferenceName := d.taskReferenceName, taskType := d.taskType,
    status := .Scheduled, retries := 0, retryLimit := d.retryLimit }

/-- Modelled from the spec (§4.3): the Compensate counterpart of a
Completed task — same `taskReferenceName`, type `Compensate` (the tests
show compensate tasks fail their workflow on first failure, so no
retries). -/
def compensateDefnOf (t : TaskInst) : TaskDefn :=
  { name := t.taskName, taskReferenceName := t.taskReferenceName,
    taskType := .Compensate, retryLimit := 0 }

/-- Modelled from the spec (§4.2 "Advancing a workflow"): the terminated
task is appended to `done`; when the definition has a next task it is
created in Scheduled and dispatched, otherwise the workflow instance
completes — and the transaction becomes Compensated for a
CompensateWorkflow, Completed otherwise. -/
def completeTask (s : EngineState) (t : TaskInst) : EngineState × StepOutput :=
  let tDone : TaskInst := { t with status := .Completed }
  match s.defTasks[s.nextIdx]? with
  | some d =>
      ({ s with
          current := some (mkScheduled d s.nextTaskId),
          done := s.done ++ [tDone],
          nextIdx := s.nextIdx + 1,
          nextTaskId := s.nextTaskId + 1 },
       { events := [.task t.taskReferenceName t.taskType .Completed,
                    .task d.taskReferenceName d.taskType .Scheduled],
         dispatches := [{ taskReferenceName := d.taskReferenceName,
                          taskType := d.taskType, status := .Scheduled }],
         taskCreates := 1, taskReloads := 0, workflowCreates := 0 })
  | none =>
      let txS := if s.wfType = .CompensateWorkflow then
        TransactionStates.Compensated else TransactionStates.Completed
      ({ s with
          current := none,
          done := s.done ++ [tDone],
          wfStatus := .Completed,
          txStatus := txS },
       { events := [.task t.taskReferenceName t.taskType .Completed,
                    .workflow s.wfType .Completed,
                    .transaction txS],
         dispatches := [], taskCreates := 0, taskReloads := 0,
         workflowCreates := 0 })

/-- Modelled from the spec (§4.3): on `Failed|AckTimeOut|Timeout`, first
task-level retry — `retries < retryLimit` reschedules the same
taskReferenceName through `taskInstanceStore.reload` (no create), emitting
the failure event then a Scheduled event with one dispatch. On exhaustion a
failing CompensateWorkflow fails the transaction; otherwise the workflow is
marked Failed and the definition's strategy applies: `Compensate`
synthesises a CompensateWorkflow whose tasks are Compensate tasks in
reverse order of the Completed tasks (an empty list completes immediately,
spec §8 boundary, making the transaction Compensated); `Failed` (and the
strategies not modelled here) fail workflow and transaction. -/
def failTask (s : EngineState) (t : TaskInst) (st : TaskStates) :
    EngineState × StepOutput :=
  if t.retries < t.retryLimit then
    ({ s with
        current := some { t with
          taskId := s.nextTaskId,
          retries := t.retries + 1,
          status := .Scheduled },
        nextTaskId := s.nextTaskId + 1 },
     { events := [.task t.taskReferenceName t.taskType st,
                  .task t.taskReferenceName t.taskType .Scheduled],
       dispatches := [{ taskReferenceName := t.taskReferenceName,
                        taskType := t.taskType, status := .Scheduled }],
       taskCreates := 0, taskReloads := 1, workflowCreates := 0 })
  else if s.wfType = .CompensateWorkflow then
    ({ s with
        current := some { t with status := st },
        wfStatus := .Failed,
        txStatus := .Failed },
     { events := [.task t.taskReferenceName t.taskType st,
                  .workflow .CompensateWorkflow .Failed,
                  .transaction .Failed],
       dispatches := [], taskCreates := 0, taskReloads := 0,
       workflowCreates := 0 })
  else
    match s.failureStrategy with
    | .Compensate =>
        match ((s.done.filter (fun d => d.status = .Completed)).reverse).map
            compensateDefnOf with
        | [] =>
            ({ s with
                archived := s.archived ++ [(s.wfType, .Failed)],
                wfType := .CompensateWorkflow,
                wfStatus := .Completed,
                txStatus := .Compensated,
                defTasks := [],
                nextIdx := 0,
                current := none,
                done := [] },
             { events := [.task t.taskReferenceName t.taskType st,
                          .workflow s.wfType .Failed,
                          .workflow .CompensateWorkflow .Running,
                          .workflow .CompensateWorkflow .Completed,
                          .transaction .Compensated],
               dispatches := [], taskCreates := 0, taskReloads := 0,
               workflowCreates := 1 })
        | d :: rest =>
            ({ s with
                archived := s.archived ++ [(s.wfType, .Failed)],
                wfType := .CompensateWorkflow,
                wfStatus := .Running,
                defTasks := d :: rest,
                nextIdx := 1,
                current := some (mkScheduled d s.nextTaskId),
                done := [],
                nextTaskId := s.nextTaskId + 1 },
             { events := [.task t.taskReferenceName t.taskType st,
                          .workflow s.wfType .Failed,
                          .workflow .CompensateWorkflow .Running,
                          .task d.taskReferenceName d.taskType .Scheduled],
               dispatches := [{ taskReferenceName := d.taskReferenceName,
                                taskType := d.taskType, status := .Scheduled }],
               taskCreates := 1, taskReloads := 0, workflowCreates := 1 })
    | _ =>
        ({ s with
            current := some { t with status := st },
            wfStatus := .Failed,
            txStatus := .Failed },
         { events := [.task t.taskReferenceName t.taskType st,
                      .workflow s.wfType .Failed,
                      .transaction .Failed],
           dispatches := [], taskCreates := 0, taskReloads := 0,
           workflowCreates := 0 })

/-- Modelled from the spec (§4.2): process one `TaskStatusUpdate` for the
transaction: validate the transition against `taskNextStates` (an illegal
or unmatched update is dropped with an error event and no state change),
record an Inprogress move, and hand terminal statuses to `completeTask` /
`failTask`. The source's `state.processUpdateTasks` folds this over a
batch. -/
def processTaskUpdate (s : EngineState) (newStatus : TaskStates) :
    EngineState × StepOutput :=
  match s.current with
  | none =>
      (s, { events := [.error], dispatches := [], taskCreates := 0,
            taskReloads := 0, workflowCreates := 0 })
  | some t =>
      if (taskNextStates t.status).contains newStatus then
        match newStatus with
        | .Scheduled =>
            (s, { events := [.error], dispatches := [], taskCreates := 0,
                  taskReloads := 0, workflowCreates := 0 })
        | .Inprogress =>
            ({ s with current := some { t with status := .Inprogress } },
             { events := [.task t.taskReferenceName t.taskType .Inprogress],
               dispatches := [], taskCreates := 0, taskReloads := 0,
               workflowCreates := 0 })
        | .Completed => completeTask s t
        | .Failed => failTask s t .Failed
        | .AckTimeOut => failTask s t .AckTimeOut
        | .Timeout => failTask s t .Timeout
      else
        (s, { events := [.error], dispatches := [], taskCreates := 0,
              taskReloads := 0, workflowCreates := 0 })

/-- Apply `n` consecutive Completed updates (a worker completing each
scheduled task in turn). -/
def runCompleted : EngineState → Nat → EngineState
  | s, 0 => s
  | s, n + 1 => runCompleted (processTaskUpdate s .Completed).1 n

/-- A Running plain-Workflow engine state over a sequential definition. -/
def engineStateAt (strat : FailureStrategies) (dts : List TaskDefn)
    (ni : Nat) (t : TaskInst) (done : List TaskInst)
    (arch : List (WorkflowTypes × WorkflowStates)) (k : Nat) : EngineState :=
  { txStatus := .Running, wfType := .Workflow, wfStatus := .Running,
    failureStrategy := strat, defTasks := dts, nextIdx := ni,
    current := some t, done := done, archived := arch, nextTaskId := k }

/-- An Inprogress task instance with the given retry counter and limit. -/
def inprogressTask (tid : Nat) (tname tref : String) (tty : TaskTypes)
    (r L : Nat) : TaskInst :=
  { taskId := tid, taskName := tname, taskReferenceName := tref,
    taskType := tty, status := .Inprogress, retries := r, retryLimit := L }

/-- A Scheduled task instance with the given retry counter and limit. -/
def scheduledTask (tid : Nat) (tname tref : String) (tty : TaskTypes)
    (r L : Nat) : TaskInst :=
  { taskId := tid, taskName := tname, taskReferenceName := tref,
    taskType := tty, status := .Scheduled, retries := r, retryLimit := L }

/-- A Completed plain task instance (as recorded in `done`). -/
def completedTask (tid : Nat) (tname tref : String) : TaskInst :=
  { taskId := tid, taskName := tname, taskReferenceName := tref,
    taskType := .Task, status := .Completed, retries := 0, retryLimit := 3 }

/-- One worker round as the tests drive it (`updateTask(task, Failed)`): an
Inprogress report followed by a Failed report. -/
def failRound (s : EngineState) : EngineState × StepOutput :=
  processTaskUpdate (processTaskUpdate s .Inprogress).1 .Failed

/-! Theorems. -/

theorem selfMap_cons_head {q : String × String} {rest : List (String × String)}
    (h : selfMap (q :: rest)) : q.2 = q.1 := h q (by simp)

theorem selfMap_cons_tail {q : String × String} {rest : List (String × String)}
    (h : selfMap (q :: rest)) : selfMap rest :=
  fun p hp => h p (List.mem_cons_of_mem q hp)

theorem truthyKeys_cons (q : String × String) (rest : List (String × String)) :
    truthyKeys (q :: rest) =
      if q.2 = "" then truthyKeys rest else q.1 :: truthyKeys rest := by
  by_cases h0 : q.2 = "" <;> simp [truthyKeys, truthy, h0]

theorem not_empty_mem_truthyKeys {m : List (String × String)}
    (h : selfMap m) : "" ∉ truthyKeys m := by
  induction m with
  | nil => simp [truthyKeys]
  | cons q rest ih =>
      have hq := selfMap_cons_head h
      have hrest := selfMap_cons_tail h
      rw [truthyKeys_cons]
      by_cases h0 : q.2 = ""
      · rw [if_pos h0]; exact ih hrest
      · rw [if_neg h0]
        intro hmem
        rcases List.mem_cons.mp hmem with h1 | h1
        · exact h0 (by rw [hq, ← h1])
        · exact ih hrest h1

theorem mapLookup_selfMap {m : List (String × String)} {r v : String}
    (h : selfMap m) (hl : mapLookup m r = some v) : v = r := by
  induction m with
  | nil => simp [mapLookup] at hl
  | cons q rest ih =>
      have hq := selfMap_cons_head h
      have hrest := selfMap_cons_tail h
      by_cases hk : q.1 = r
      · rw [mapLookup, if_pos hk] at hl
        have : v = q.2 := by injection hl.symm
        rw [this, hq, hk]
      · rw [mapLookup, if_neg hk] at hl
        exact ih hrest hl

theorem mem_truthyKeys {m : List (String × String)} {r : String}
    (h : selfMap m) : r ∈ truthyKeys m ↔ mapLookup m r = some r ∧ r ≠ "" := by
  induction m with
  | nil => simp [truthyKeys, mapLookup]
  | cons q rest ih =>
      have hq := selfMap_cons_head h
      have hrest := selfMap_cons_tail h
      rw [truthyKeys_cons]
      by_cases hk : q.1 = r
      · have hl : mapLookup (q :: rest) r = some q.1 := by
          rw [mapLookup, if_pos hk, hq]
        by_cases h0 : q.2 = ""
        · have hr0 : r = "" := by rw [← hk, ← hq, h0]
          rw [if_pos h0]
          constructor
          · intro hmem
            exact absurd (hr0 ▸ hmem) (not_empty_mem_truthyKeys hrest)
          · intro ⟨_, hne⟩
            exact absurd hr0 hne
        · have hr0 : r ≠ "" := by
            intro hr
            exact h0 (by rw [hq, hk, hr])
          rw [if_neg h0]
          constructor
          · intro _
            exact ⟨by rw [hl, hk], hr0⟩
          · intro _
            exact List.mem_cons.mpr (Or.inl hk.symm)
      · have hl : mapLookup (q :: rest) r = mapLookup rest r := by
          rw [mapLookup, if_neg hk]
        rw [hl]
        by_cases h0 : q.2 = ""
        · rw [if_pos h0]; exact ih hrest
        · rw [if_neg h0]
          constructor
          · intro hmem
            rcases List.mem_cons.mp hmem with h1 | h1
            · exact absurd h1.symm hk
            · exact (ih hrest).mp h1
          · intro hx
            exact List.mem_cons.mpr (Or.inr ((ih hrest).mpr hx))

theorem truthy_mapLookup {m : List (String × String)} {r : String}
    (h : selfMap m) : truthy (mapLookup m r) = true ↔ r ∈ truthyKeys m := by
  constructor
  · intro ht
    cases hl : mapLookup m r with
    | none => rw [hl] at ht; simp [truthy] at ht
    | some v =>
        have hv := mapLookup_selfMap h hl
        rw [hl, hv] at ht
        have hne : r ≠ "" := by
          intro hr
          rw [hr] at ht
          simp [truthy] at ht
        exact (mem_truthyKeys h).mpr ⟨hv ▸ hl, hne⟩
  · intro hm
    obtain ⟨hl, hne⟩ := (mem_truthyKeys h).mp hm
    rw [hl]
    simp [truthy, hne]

/-- Truthiness of the full JS read: truthy exactly for a recorded
non-empty name or an `Object.prototype` member name (the latter has no own
binding under the self-map invariant, its value would be itself and
non-empty, so both cases are disjoint from the falsy ones). -/
theorem truthyRead_iff {m : List (String × String)} {r : String}
    (h : selfMap m) :
    truthyRead m r = true ↔
      (r ∈ truthyKeys m ∨ r ∈ objectPrototypeKeys) := by
  cases hl : mapLookup m r with
  | none =>
      simp only [truthyRead, hl]
      constructor
      · intro hc
        exact Or.inr (List.mem_of_elem_eq_true hc)
      · intro hc
        rcases hc with hc | hc
        · obtain ⟨hlook, _⟩ := (mem_truthyKeys h).mp hc
          rw [hl] at hlook
          cases hlook
        · exact List.elem_eq_true_of_mem hc
  | some v =>
      have hv := mapLookup_selfMap h hl
      rw [hv] at hl
      simp only [truthyRead, hl]
      constructor
      · intro ht
        have hne : r ≠ "" := by
          intro hr
          rw [hr] at ht
          simp at ht
        exact Or.inl ((mem_truthyKeys h).mpr ⟨hl, hne⟩)
      · intro hc
        have hne : r ≠ "" := by
          rcases hc with hc | hc
          · exact ((mem_truthyKeys h).mp hc).2
          · intro hr
            rw [hr] at hc
            revert hc
            decide
        simp [hne]

theorem selfMap_mapAssign {m : List (String × String)} (r : String)
    (h : selfMap m) : selfMap (mapAssign m r r) := by
  induction m with
  | nil =>
      intro p hp
      rw [mapAssign] at hp
      rcases List.mem_singleton.mp hp with h1
      simp [h1]
  | cons q rest ih =>
      have hq := selfMap_cons_head h
      have hrest := selfMap_cons_tail h
      intro p hp
      by_cases hk : q.1 = r
      · rw [mapAssign, if_pos hk] at hp
        rcases List.mem_cons.mp hp with h1 | h1
        · rw [h1]; exact hk.symm
        · exact hrest p h1
      · rw [mapAssign, if_neg hk] at hp
        rcases List.mem_cons.mp hp with h1 | h1
        · rw [h1]; exact hq
        · exact ih hrest p h1

theorem mapAssign_absent {m : List (String × String)} {r : String}
    (hl : mapLookup m r = none) :
    truthyKeys (mapAssign m r r) =
      truthyKeys m ++ (if r = "" then [] else [r]) := by
  induction m with
  | nil =>
      by_cases hr : r = "" <;>
        simp [mapAssign, truthyKeys, truthy, hr]
  | cons q rest ih =>
      have hk : ¬ q.1 = r := by
        intro hk
        rw [mapLookup, if_pos hk] at hl
        cases hl
      rw [mapLookup, if_neg hk] at hl
      rw [mapAssign, if_neg hk, truthyKeys_cons, truthyKeys_cons, ih hl]
      by_cases h0 : q.2 = ""
      · rw [if_pos h0, if_pos h0]
      · rw [if_neg h0, if_neg h0, List.cons_append]

theorem mapAssign_present {m : List (String × String)} {r v : String}
    (h : selfMap m) (hl : mapLookup m r = some v) : mapAssign m r r = m := by
  induction m with
  | nil => simp [mapLookup] at hl
  | cons q rest ih =>
      have hq := selfMap_cons_head h
      have hrest := selfMap_cons_tail h
      by_cases hk : q.1 = r
      · rw [mapAssign, if_pos hk]
        have : (q.1, r) = q := by
          rw [← hk] at *
          exact Prod.ext rfl (by rw [hq])
        rw [this]
      · rw [mapLookup, if_neg hk] at hl
        rw [mapAssign, if_neg hk, ih hrest hl]

/-- The duplicate branch of `validateOne` updates the seen-object exactly as
`seenStep` updates the reference seen-set. -/
theorem truthyKeys_update {m : List (String × String)} (r : String)
    (h : selfMap m) :
    truthyKeys (if truthyRead m r then m
                else mapAssign m r r) = seenStep (truthyKeys m) r := by
  by_cases hd : truthyRead m r = true
  · rw [if_pos hd, seenStep, if_pos ((truthyRead_iff h).mp hd)]
  · have hd' : truthyRead m r = false := by
      revert hd
      cases truthyRead m r <;> simp
    have hnm : ¬(r ∈ truthyKeys m ∨ r ∈ objectPrototypeKeys) := fun hmem =>
      hd ((truthyRead_iff h).mpr hmem)
    rw [if_neg (by rw [hd']; simp), seenStep, if_neg hnm]
    cases hl : mapLookup m r with
    | none =>
        rw [mapAssign_absent hl]
        by_cases hr : r = ""
        · rw [if_pos hr, if_pos hr, List.append_nil]
        · rw [if_neg hr, if_neg hr]
    | some v =>
        have hv := mapLookup_selfMap h hl
        have hr : r = "" := by
          by_contra hne
          have : truthyRead m r = true := by
            simp [truthyRead, hl, hv, hne]
          rw [this] at hd'
          cases hd'
        rw [mapAssign_present h hl, if_pos hr]

/-- The duplicate branch of `validateOne` preserves the self-map invariant. -/
theorem selfMap_update {m : List (String × String)} (r : String)
    (h : selfMap m) :
    selfMap (if truthyRead m r then m else mapAssign m r r) := by
  by_cases hd : truthyRead m r = true
  · rw [if_pos hd]; exact h
  · rw [if_neg (by revert hd; cases truthyRead m r <;> simp)]
    exact selfMap_mapAssign r h

/-- Lemma: `baseChecks` appends exactly `specBaseErrors` and updates the
seen-object exactly as `seenStep` updates the reference seen-set. -/
theorem baseChecks_spec (t : AllTaskType) (currentRoot : String)
    (acc : TasksValidateOutput) (h : selfMap acc.taskReferenceNames) :
    (baseChecks t currentRoot acc).errors
        = acc.errors ++ specBaseErrors t currentRoot (truthyKeys acc.taskReferenceNames)
      ∧ truthyKeys (baseChecks t currentRoot acc).taskReferenceNames
          = seenStep (truthyKeys acc.taskReferenceNames) (refNameOf t)
      ∧ selfMap (baseChecks t currentRoot acc).taskReferenceNames := by
  have hupd := truthyKeys_update (m := acc.taskReferenceNames) (refNameOf t) h
  have hsm := selfMap_update (m := acc.taskReferenceNames) (refNameOf t) h
  refine ⟨?_, by simpa [baseChecks] using hupd, by simpa [baseChecks] using hsm⟩
  by_cases hmem : refNameOf t ∈ truthyKeys acc.taskReferenceNames ∨
      refNameOf t ∈ objectPrototypeKeys
  · have hb := (truthyRead_iff h).mpr hmem
    simp [baseChecks, specBaseErrors, hb, hmem, List.append_assoc]
  · have hb : truthyRead acc.taskReferenceNames (refNameOf t) = false := by
      cases hx : truthyRead acc.taskReferenceNames (refNameOf t) with
      | false => rfl
      | true => exact absurd ((truthyRead_iff h).mp hx) hmem
    simp [baseChecks, specBaseErrors, hb, hmem, List.append_assoc]

mutual

/-- Characterisation: `validateOne` is described exactly by `specTaskErrors` / `seenTask` on
the truthy keys of its accumulator. -/
theorem validateOne_spec (t : AllTaskType) :
    ∀ (root : String) (acc : TasksValidateOutput),
      selfMap acc.taskReferenceNames →
      (validateOne t root acc).errors
          = acc.errors ++ specTaskErrors t root (truthyKeys acc.taskReferenceNames)
        ∧ truthyKeys (validateOne t root acc).taskReferenceNames
            = seenTask t (truthyKeys acc.taskReferenceNames)
        ∧ selfMap (validateOne t root acc).taskReferenceNames := by
  cases t with
  | task n r =>
      intro root acc h
      obtain ⟨hb1, hb2, hb3⟩ := baseChecks_spec (.task n r) root acc h
      refine ⟨?_, ?_, ?_⟩
      · rw [show validateOne (.task n r) root acc = baseChecks (.task n r) root acc
          from by simp [validateOne]]
        rw [hb1]
        simp [specTaskErrors]
      · rw [show validateOne (.task n r) root acc = baseChecks (.task n r) root acc
          from by simp [validateOne]]
        rw [hb2]
        simp [seenTask, refNameOf]
      · rw [show validateOne (.task n r) root acc = baseChecks (.task n r) root acc
          from by simp [validateOne]]
        exact hb3
  | subWorkflow n r wn wr =>
      intro root acc h
      obtain ⟨hb1, hb2, hb3⟩ := baseChecks_spec (.subWorkflow n r wn wr) root acc h
      have hval : validateOne (.subWorkflow n r wn wr) root acc =
          { errors := (baseChecks (.subWorkflow n r wn wr) root acc).errors
              ++ (if isValidName wn then []
                  else [root ++ ".workflow.name is invalid"])
              ++ (if isValidRev wr then []
                  else [root ++ ".workflow.rev is invalid"]),
            taskReferenceNames :=
              (baseChecks (.subWorkflow n r wn wr) root acc).taskReferenceNames } := by
        simp [validateOne]
      refine ⟨?_, ?_, ?_⟩
      · rw [hval]
        simp only []
        rw [hb1]
        simp [specTaskErrors, List.append_assoc]
      · rw [hval]
        simp only []
        rw [hb2]
        simp [seenTask, refNameOf]
      · rw [hval]
        exact hb3
  | parallel n r lanes =>
      intro root acc h
      obtain ⟨hb1, hb2, hb3⟩ := baseChecks_spec (.parallel n r lanes) root acc h
      obtain ⟨ih1, ih2, ih3⟩ :=
        validateLanes_spec lanes root 0 (baseChecks (.parallel n r lanes) root acc) hb3
      have hval : validateOne (.parallel n r lanes) root acc =
          validateLanes lanes root 0 (baseChecks (.parallel n r lanes) root acc) := by
        simp [validateOne]
      refine ⟨?_, ?_, ?_⟩
      · rw [hval, ih1, hb1, hb2]
        simp [specTaskErrors, refNameOf, List.append_assoc]
      · rw [hval, ih2, hb2]
        simp [seenTask, refNameOf]
      · rw [hval]
        exact ih3
  | decision n r ds dd =>
      intro root acc h
      obtain ⟨hb1, hb2, hb3⟩ := baseChecks_spec (.decision n r ds dd) root acc h
      obtain ⟨ihd1, ihd2, ihd3⟩ :=
        validateTasksAux_spec dd (root ++ ".defaultDecision") 0
          { errors := (baseChecks (.decision n r ds dd) root acc).errors
              ++ (if dd.isEmpty then [root ++ ".defaultDecision cannot be empty"]
                  else []),
            taskReferenceNames :=
              (baseChecks (.decision n r ds dd) root acc).taskReferenceNames } hb3
      obtain ⟨ihs1, ihs2, ihs3⟩ :=
        validateDecisions_spec ds root
          (validateTasksAux dd (root ++ ".defaultDecision") 0
            { errors := (baseChecks (.decision n r ds dd) root acc).errors
                ++ (if dd.isEmpty then [root ++ ".defaultDecision cannot be empty"]
                    else []),
              taskReferenceNames :=
                (baseChecks (.decision n r ds dd) root acc).taskReferenceNames }) ihd3
      have hval : validateOne (.decision n r ds dd) root acc =
          validateDecisions ds root
            (validateTasksAux dd (root ++ ".defaultDecision") 0
              { errors := (baseChecks (.decision n r ds dd) root acc).errors
                  ++ (if dd.isEmpty then [root ++ ".defaultDecision cannot be empty"]
                      else []),
                taskReferenceNames :=
                  (baseChecks (.decision n r ds dd) root acc).taskReferenceNames }) := by
        simp [validateOne]
      dsimp only at ihd1 ihd2 ihs1 ihs2
      refine ⟨?_, ?_, ?_⟩
      · rw [hval, ihs1, ihd1, ihd2, hb2, hb1]
        simp [specTaskErrors, refNameOf, List.append_assoc]
      · rw [hval, ihs2, ihd2, hb2]
        simp [seenTask, refNameOf]
      · rw [hval]
        exact ihs3

/-- Characterisation: `validateTasksAux` is described exactly by `specListErrors` / `seenList`. -/
theorem validateTasksAux_spec (ts : List AllTaskType) :
    ∀ (root : String) (idx : Nat) (acc : TasksValidateOutput),
      selfMap acc.taskReferenceNames →
      (validateTasksAux ts root idx acc).errors
          = acc.errors ++ specListErrors ts root idx (truthyKeys acc.taskReferenceNames)
        ∧ truthyKeys (validateTasksAux ts root idx acc).taskReferenceNames
            = seenList ts (truthyKeys acc.taskReferenceNames)
        ∧ selfMap (validateTasksAux ts root idx acc).taskReferenceNames := by
  cases ts with
  | nil =>
      intro root idx acc h
      exact ⟨by simp [validateTasksAux, specListErrors],
             by simp [validateTasksAux, seenList], h⟩
  | cons t rest =>
      intro root idx acc h
      obtain ⟨ih1, ih2, ih3⟩ :=
        validateOne_spec t (root ++ ".tasks[" ++ Nat.repr idx ++ "]") acc h
      obtain ⟨ihr1, ihr2, ihr3⟩ :=
        validateTasksAux_spec rest root (idx + 1)
          (validateOne t (root ++ ".tasks[" ++ Nat.repr idx ++ "]") acc) ih3
      refine ⟨?_, ?_, ?_⟩
      · rw [validateTasksAux, ihr1, ih1, ih2]
        simp [specListErrors, List.append_assoc]
      · rw [validateTasksAux, ihr2, ih2]
        simp [seenList]
      · rw [validateTasksAux]
        exact ihr3

/-- Characterisation: `validateLanes` is described exactly by `specLanesErrors` / `seenLanes`. -/
theorem validateLanes_spec (lanes : List (List AllTaskType)) :
    ∀ (currentRoot : String) (idx : Nat) (acc : TasksValidateOutput),
      selfMap acc.taskReferenceNames →
      (validateLanes lanes currentRoot idx acc).errors
          = acc.errors
              ++ specLanesErrors lanes currentRoot idx (truthyKeys acc.taskReferenceNames)
        ∧ truthyKeys (validateLanes lanes currentRoot idx acc).taskReferenceNames
            = seenLanes lanes (truthyKeys acc.taskReferenceNames)
        ∧ selfMap (validateLanes lanes currentRoot idx acc).taskReferenceNames := by
  cases lanes with
  | nil =>
      intro currentRoot idx acc h
      exact ⟨by simp [validateLanes, specLanesErrors],
             by simp [validateLanes, seenLanes], h⟩
  | cons lane rest =>
      intro currentRoot idx acc h
      obtain ⟨ih1, ih2, ih3⟩ :=
        validateTasksAux_spec lane
          (currentRoot ++ ".parallelTasks[" ++ Nat.repr idx ++ "]") 0 acc h
      obtain ⟨ihr1, ihr2, ihr3⟩ :=
        validateLanes_spec rest currentRoot (idx + 1)
          (validateTasksAux lane
            (currentRoot ++ ".parallelTasks[" ++ Nat.repr idx ++ "]") 0 acc) ih3
      refine ⟨?_, ?_, ?_⟩
      · rw [validateLanes, ihr1, ih1, ih2]
        simp [specLanesErrors, List.append_assoc]
      · rw [validateLanes, ihr2, ih2]
        simp [seenLanes]
      · rw [validateLanes]
        exact ihr3

/-- Characterisation: `validateDecisions` is described exactly by `specDecsErrors` / `seenDecs`. -/
theorem validateDecisions_spec (ds : List (String × List AllTaskType)) :
    ∀ (currentRoot : String) (acc : TasksValidateOutput),
      selfMap acc.taskReferenceNames →
      (validateDecisions ds currentRoot acc).errors
          = acc.errors
              ++ specDecsErrors ds currentRoot (truthyKeys acc.taskReferenceNames)
        ∧ truthyKeys (validateDecisions ds currentRoot acc).taskReferenceNames
            = seenDecs ds (truthyKeys acc.taskReferenceNames)
        ∧ selfMap (validateDecisions ds currentRoot acc).taskReferenceNames := by
  cases ds with
  | nil =>
      intro currentRoot acc h
      exact ⟨by simp [validateDecisions, specDecsErrors],
             by simp [validateDecisions, seenDecs], h⟩
  | cons p rest =>
      intro currentRoot acc h
      obtain ⟨ih1, ih2, ih3⟩ :=
        validateTasksAux_spec p.2
          (currentRoot ++ ".decisions[\"" ++ p.1 ++ "\"]") 0 acc h
      obtain ⟨ihr1, ihr2, ihr3⟩ :=
        validateDecisions_spec rest currentRoot
          (validateTasksAux p.2
            (currentRoot ++ ".decisions[\"" ++ p.1 ++ "\"]") 0 acc) ih3
      have hval : validateDecisions (p :: rest) currentRoot acc =
          validateDecisions rest currentRoot
            (validateTasksAux p.2
              (currentRoot ++ ".decisions[\"" ++ p.1 ++ "\"]") 0 acc) := by
        rw [show p = (p.1, p.2) from rfl, validateDecisions]
      refine ⟨?_, ?_, ?_⟩
      · rw [hval, ihr1, ih1, ih2]
        simp [specDecsErrors, List.append_assoc]
      · rw [hval, ihr2, ih2]
        simp [seenDecs]
      · rw [hval]
        exact ihr3

end

/-- Membership in a conditional singleton list. -/
theorem mem_ite_singleton {c : Prop} [Decidable c] {x y : String} :
    (x ∈ if c then [y] else []) ↔ c ∧ x = y := by
  by_cases hc : c <;> simp [hc]

/-- Membership in a conditionally empty list. -/
theorem mem_ite_nil {c : Prop} [Decidable c] {x y : String} :
    (x ∈ if c then [] else [y]) ↔ ¬c ∧ x = y := by
  by_cases hc : c <;> simp [hc]

/-- Unfolding of the (badly named) retry-config check. -/
theorem isFailureStrategiesConfigValid_iff (wd : IWorkflowDefinition) :
    isFailureStrategiesConfigValid wd = true ↔
      wd.failureStrategy = some .Retry ∧
        (isNumber (retryLimitPath wd) = false ∨
          isNumber (retryDelaySecondPath wd) = false) := by
  unfold isFailureStrategiesConfigValid
  by_cases hs : wd.failureStrategy = some FailureStrategies.Retry <;>
    simp [hs, Bool.or_eq_true, Bool.not_eq_true']

/-- Unfolding of the (badly named) recovery-workflow-config check. -/
theorem isRecoveryWorkflowConfigValid_iff (wd : IWorkflowDefinition) :
    isRecoveryWorkflowConfigValid wd = true ↔
      wd.failureStrategy = some .RecoveryWorkflow ∧
        (isString (recoveryNamePath wd) = false ∨
          isNumber (recoveryRevPath wd) = false) := by
  unfold isRecoveryWorkflowConfigValid
  by_cases hs : wd.failureStrategy = some FailureStrategies.RecoveryWorkflow <;>
    simp [hs, Bool.or_eq_true, Bool.not_eq_true']

/-- C6 counterexample: a definition with `failureStrategy = Retry` and
`retry.limit = -1` passes validation with no error at all — the claimed
rejection of negative `retry.limit` does not happen. -/
theorem C6_counterexample :
    workflowValidation negativeRetryDefinition = [] ∧
      WorkflowDefinition.construct negativeRetryDefinition =
        .ok negativeRetryDefinition := ⟨rfl, rfl⟩

/-- C6 (amended): validation reports `workflowDefinition.retry is invalid`
exactly when `failureStrategy = Retry` and `retry.limit` or
`retry.delaySecond` is not a number; the sign of the numbers is never
checked, so negative values are accepted. -/
theorem C6_retry_validation (wd : IWorkflowDefinition) :
    "workflowDefinition.retry is invalid" ∈ workflowValidation wd ↔
      wd.failureStrategy = some .Retry ∧
        (isNumber (retryLimitPath wd) = false ∨
          isNumber (retryDelaySecondPath wd) = false) := by
  rw [← isFailureStrategiesConfigValid_iff]
  simp [workflowValidation, List.mem_append, mem_ite_singleton, mem_ite_nil]

/-- C7 counterexample: `recoveryWorkflow.name = "!!!"` is not a valid name,
yet validation reports no error — only string-ness of the name and
number-ness of the rev are checked. -/
theorem C7_counterexample :
    isValidName "!!!" = false ∧
      workflowValidation badRecoveryNameDefinition = [] ∧
      WorkflowDefinition.construct badRecoveryNameDefinition =
        .ok badRecoveryNameDefinition := ⟨rfl, rfl, rfl⟩

/-- C7 (amended): validation reports
`workflowDefinition.recoveryWorkflow is invalid` exactly when
`failureStrategy = RecoveryWorkflow` and `recoveryWorkflow.name` is not a
string or `recoveryWorkflow.rev` is not a number; the name/rev regexes are
not applied to the recovery-workflow block. -/
theorem C7_recoveryWorkflow_validation (wd : IWorkflowDefinition) :
    "workflowDefinition.recoveryWorkflow is invalid" ∈ workflowValidation wd ↔
      wd.failureStrategy = some .RecoveryWorkflow ∧
        (isString (recoveryNamePath wd) = false ∨
          isNumber (recoveryRevPath wd) = false) := by
  rw [← isRecoveryWorkflowConfigValid_iff]
  simp [workflowValidation, List.mem_append, mem_ite_singleton, mem_ite_nil]

/-- C8 counterexample, both directions of the claim. Two task nodes share
the taskReferenceName `""`: the duplicate guard reads the stored `""`,
which is falsy, so no `... is duplicated` error is reported for the second
occurrence. And a definition with a single node (all taskReferenceNames
trivially distinct) named `"toString"` gets a duplication error on its
FIRST occurrence: the guard `result.taskReferenceNames["toString"]` falls
through to `Object.prototype.toString`, which is truthy. -/
theorem C8_counterexample :
    ((validateTasks [.task "a" "", .task "b" ""] "workflowDefinition"
        ⟨[], []⟩).errors =
      ["workflowDefinition.tasks[0].taskReferenceName is invalid",
       "workflowDefinition.tasks[1].taskReferenceName is invalid"] ∧
    "workflowDefinition.tasks[1].taskReferenceName is duplicated" ∉
      (validateTasks [.task "a" "", .task "b" ""] "workflowDefinition"
        ⟨[], []⟩).errors) ∧
    (validateTasks [.task "toString" "toString"] "workflowDefinition"
        ⟨[], []⟩).errors =
      ["workflowDefinition.tasks[0].taskReferenceName is duplicated"] := by
  refine ⟨⟨by decide, by decide⟩, by decide⟩

/-- C8 (amended): `validateTasks` is exactly described by the reference
function `specListErrors`, which walks the whole definition (descending
into Decision branches, defaultDecision lists and Parallel lanes) carrying
the set of previously seen non-empty taskReferenceNames, and emits
`<path>.taskReferenceName is duplicated` precisely at a node whose
taskReferenceName is in that set OR is an `Object.prototype` member name.
Hence every repeated occurrence of an ordinary non-empty taskReferenceName
is reported at its path and a definition with all-distinct ordinary names
gets no duplication error; but repeats of the (falsy) empty string are
silently missed, and every occurrence — the very first included — of a
prototype-member name such as `toString` or `constructor` is spuriously
reported as duplicated, because `result.taskReferenceNames[ref]` reads
through the plain object's prototype chain. -/
theorem C8_duplicate_taskReferenceName (tasks : List AllTaskType)
    (root : String) (es : List String) :
    (validateTasks tasks root ⟨es, []⟩).errors =
      es ++ specListErrors tasks root 0 [] := by
  have h := validateTasksAux_spec tasks root 0 ⟨es, []⟩ (by intro p hp; cases hp)
  have := h.1
  simpa [validateTasks, truthyKeys] using this

theorem kvGet_kvSet_self (kv : RedisKV) (key : String) (v : ITransaction) :
    kvGet (kvSet kv key v) key = some v := by
  induction kv with
  | nil => simp [kvSet, kvGet]
  | cons p rest ih =>
      by_cases hk : p.1 = key
      · simp [kvSet, kvGet, hk]
      · simp [kvSet, kvGet, hk, ih]

theorem kvGet_append_single (kv : RedisKV) (key : String) (v : ITransaction)
    (h : kvGet kv key = none) : kvGet (kv ++ [(key, v)]) key = some v := by
  induction kv with
  | nil => simp [kvGet]
  | cons p rest ih =>
      by_cases hk : p.1 = key
      · rw [kvGet, if_pos hk] at h
        cases h
      · rw [kvGet, if_neg hk] at h
        simp [kvGet, hk, ih h]

/-- C4 counterexample: updating the Running transaction to the terminal
status Compensated succeeds but stores `endTime = null` — `endTime` is set
only for Completed and Failed, not for every terminal status as claimed. -/
theorem C4_counterexample :
    (TransactionInstanceRedisStore.update oneTxKV
        { transactionId := "tx1", status := .Compensated, output := none } 100).1 =
      .ok { transactionId := "tx1", status := .Compensated, output := none,
            endTime := none, createTime := 7 } := rfl

/-- C4 (amended): for every update accepted by the store, the stored
transaction carries the requested status, and its `endTime` is set (to the
update time) iff the new status is Completed or Failed; every other status —
including the terminal Cancelled and Compensated — leaves `endTime` null. -/
theorem C4_endTime_set_iff (kv : RedisKV) (u : ITransactionUpdate) (now : Nat)
    (t : ITransaction)
    (hok : (TransactionInstanceRedisStore.update kv u now).1 = .ok t) :
    t.status = u.status ∧
      (t.endTime = some now ↔ (u.status = .Completed ∨ u.status = .Failed)) ∧
      (¬(u.status = .Completed ∨ u.status = .Failed) → t.endTime = none) := by
  cases hg : kvGet kv (transactionKey u.transactionId) with
  | none => simp [TransactionInstanceRedisStore.update, hg] at hok
  | some t0 =>
      simp only [TransactionInstanceRedisStore.update, hg] at hok
      by_cases hc : (TransactionNextStates t0.status).contains u.status = true
      · rw [if_pos hc] at hok
        have ht : t = updatedTransaction t0 u now := by
          injection hok with h1
          exact h1.symm
        subst ht
        by_cases hterm : u.status = .Completed ∨ u.status = .Failed
        · refine ⟨rfl, ?_, fun hn => absurd hterm hn⟩
          simp [updatedTransaction, hterm]
        · refine ⟨rfl, ?_, fun _ => by simp [updatedTransaction, hterm]⟩
          simp [updatedTransaction, hterm]
      · rw [if_neg hc] at hok
        cases hok

/-- C4 witness: the amended statement evaluated on a concrete accepted
update (`tx1` goes Running → Completed at time 100). -/
theorem C4_endTime_set_iff_witness :
    ({ transactionId := "tx1", status := .Completed, output := none,
       endTime := some 100, createTime := 7 } : ITransaction).status = .Completed ∧
      (({ transactionId := "tx1", status := .Completed, output := none,
          endTime := some 100, createTime := 7 } : ITransaction).endTime = some 100 ↔
        ((.Completed : TransactionStates) = .Completed ∨
          (.Completed : TransactionStates) = .Failed)) ∧
      (¬((.Completed : TransactionStates) = .Completed ∨
          (.Completed : TransactionStates) = .Failed) →
        ({ transactionId := "tx1", status := .Completed, output := none,
           endTime := some 100, createTime := 7 } : ITransaction).endTime = none) :=
  C4_endTime_set_iff oneTxKV
    { transactionId := "tx1", status := .Completed, output := none } 100
    { transactionId := "tx1", status := .Completed, output := none,
      endTime := some 100, createTime := 7 } rfl

/-- C5: `update` enforces the transition table: a status not allowed by
`TransactionNextStates` for the stored status raises the
`Cannot change status` error and leaves the keyspace untouched, while an
allowed status is written through and becomes the stored status. -/
theorem C5_update_enforces_transitions (kv : RedisKV) (u : ITransactionUpdate)
    (now : Nat) (t : ITransaction)
    (ht : kvGet kv (transactionKey u.transactionId) = some t) :
    (u.status ∉ TransactionNextStates t.status →
      (TransactionInstanceRedisStore.update kv u now).1 =
          .error ("Cannot change status of \"" ++ t.transactionId ++
            "\" from " ++ t.status.text ++ " to " ++ u.status.text) ∧
        (TransactionInstanceRedisStore.update kv u now).2 = kv) ∧
    (u.status ∈ TransactionNextStates t.status →
      (TransactionInstanceRedisStore.update kv u now).1 =
          .ok (updatedTransaction t u now) ∧
        kvGet (TransactionInstanceRedisStore.update kv u now).2
            (transactionKey u.transactionId) = some (updatedTransaction t u now) ∧
        (updatedTransaction t u now).status = u.status) := by
  constructor
  · intro hc
    simp [TransactionInstanceRedisStore.update, ht, hc]
  · intro hc
    simp [TransactionInstanceRedisStore.update, ht, hc, kvGet_kvSet_self,
      updatedTransaction]

/-- C5 witness: on the concrete store, `tx1` (Running) cannot go to Running
again (an illegal transition), while Running → Completed is accepted and
stored. -/
theorem C5_update_enforces_transitions_witness :
    ((TransactionStates.Running ∉ TransactionNextStates runningTx.status →
      (TransactionInstanceRedisStore.update oneTxKV
          { transactionId := "tx1", status := .Running, output := none } 50).1 =
          .error ("Cannot change status of \"" ++ runningTx.transactionId ++
            "\" from " ++ runningTx.status.text ++ " to " ++
            TransactionStates.text .Running) ∧
        (TransactionInstanceRedisStore.update oneTxKV
          { transactionId := "tx1", status := .Running, output := none } 50).2 =
          oneTxKV) ∧
    (TransactionStates.Running ∈ TransactionNextStates runningTx.status →
      (TransactionInstanceRedisStore.update oneTxKV
          { transactionId := "tx1", status := .Running, output := none } 50).1 =
          .ok (updatedTransaction runningTx
            { transactionId := "tx1", status := .Running, output := none } 50) ∧
        kvGet (TransactionInstanceRedisStore.update oneTxKV
            { transactionId := "tx1", status := .Running, output := none } 50).2
            (transactionKey "tx1") =
          some (updatedTransaction runningTx
            { transactionId := "tx1", status := .Running, output := none } 50) ∧
        (updatedTransaction runningTx
            { transactionId := "tx1", status := .Running, output := none } 50).status =
          .Running)) ∧
    TransactionStates.Running ∉ TransactionNextStates runningTx.status :=
  ⟨C5_update_enforces_transitions oneTxKV
      { transactionId := "tx1", status := .Running, output := none } 50
      runningTx rfl,
    by decide⟩

/-- C9: `create` on an already-present transactionId throws
`already exists` and leaves the stored transaction unchanged; on an absent
transactionId it stores the given transaction and returns it. -/
theorem C9_create_unique (kv : RedisKV) (t : ITransaction) :
    (∀ v, kvGet kv (transactionKey t.transactionId) = some v →
      (TransactionInstanceRedisStore.create kv t).1 =
          .error ("Transaction \"" ++ t.transactionId ++ "\" already exists") ∧
        (TransactionInstanceRedisStore.create kv t).2 = kv ∧
        kvGet (TransactionInstanceRedisStore.create kv t).2
            (transactionKey t.transactionId) = some v) ∧
    (kvGet kv (transactionKey t.transactionId) = none →
      (TransactionInstanceRedisStore.create kv t).1 = .ok t ∧
        kvGet (TransactionInstanceRedisStore.create kv t).2
            (transactionKey t.transactionId) = some t) := by
  constructor
  · intro v hv
    unfold TransactionInstanceRedisStore.create
    simp [kvSetnx, hv]
  · intro hn
    unfold TransactionInstanceRedisStore.create
    simp [kvSetnx, hn, kvGet_append_single kv _ t hn]

/-- C9 witness: creating `tx1` again on the concrete store errors and keeps
the stored value; creating a fresh `tx2` stores it. -/
theorem C9_create_unique_witness :
    ((TransactionInstanceRedisStore.create oneTxKV runningTx).1 =
        .error ("Transaction \"" ++ runningTx.transactionId ++ "\" already exists") ∧
      (TransactionInstanceRedisStore.create oneTxKV runningTx).2 = oneTxKV ∧
      kvGet (TransactionInstanceRedisStore.create oneTxKV runningTx).2
          (transactionKey runningTx.transactionId) = some runningTx) ∧
    ((TransactionInstanceRedisStore.create oneTxKV
        { transactionId := "tx2", status := .Running, output := none,
          endTime := none, createTime := 9 }).1 =
        .ok { transactionId := "tx2", status := .Running, output := none,
              endTime := none, createTime := 9 } ∧
      kvGet (TransactionInstanceRedisStore.create oneTxKV
          { transactionId := "tx2", status := .Running, output := none,
            endTime := none, createTime := 9 }).2
          (transactionKey "tx2") =
        some { transactionId := "tx2", status := .Running, output := none,
               endTime := none, createTime := 9 }) :=
  ⟨(C9_create_unique oneTxKV runningTx).1 runningTx rfl,
    (C9_create_unique oneTxKV
      { transactionId := "tx2", status := .Running, output := none,
        endTime := none, createTime := 9 }).2 rfl⟩

/-- C10: for an absent transactionId, `get` returns `null` without raising,
while `update` on the same id raises `Transaction "<id>" not found` and
leaves the keyspace unchanged. -/
theorem C10_get_null_update_throws (kv : RedisKV) (transactionId : String)
    (st : TransactionStates) (out : Option String) (now : Nat)
    (habs : kvGet kv (transactionKey transactionId) = none) :
    TransactionInstanceRedisStore.get kv transactionId = none ∧
      (TransactionInstanceRedisStore.update kv
          { transactionId := transactionId, status := st, output := out } now).1 =
        .error ("Transaction \"" ++ transactionId ++ "\" not found") ∧
      (TransactionInstanceRedisStore.update kv
          { transactionId := transactionId, status := st, output := out } now).2 =
        kv := by
  refine ⟨?_, ?_, ?_⟩
  · unfold TransactionInstanceRedisStore.get
    exact habs
  · unfold TransactionInstanceRedisStore.update
    simp [habs]
  · unfold TransactionInstanceRedisStore.update
    simp [habs]

/-- C10 witness: the statement evaluated on the concrete store for the
absent id `tx9`. -/
theorem C10_get_null_update_throws_witness :
    TransactionInstanceRedisStore.get oneTxKV "tx9" = none ∧
      (TransactionInstanceRedisStore.update oneTxKV
          { transactionId := "tx9", status := .Completed, output := none } 3).1 =
        .error ("Transaction \"" ++ "tx9" ++ "\" not found") ∧
      (TransactionInstanceRedisStore.update oneTxKV
          { transactionId := "tx9", status := .Completed, output := none } 3).2 =
        oneTxKV :=
  C10_get_null_update_throws oneTxKV "tx9" .Completed none 3 rfl

/-- C2: while `retries < retryLimit`, a Failed report reschedules the same
`taskReferenceName` via `taskInstanceStore.reload` — exactly one reload and
no `taskInstanceStore.create` — emitting a TASK Failed event followed by a
TASK Scheduled event, with exactly one dispatch of the rescheduled task; the
replacement instance keeps the taskReferenceName and bumps `retries`. -/
theorem C2_task_retry_reload (s : EngineState) (t : TaskInst)
    (hcur : s.current = some t)
    (hlegal : TaskStates.Failed ∈ taskNextStates t.status)
    (hretry : t.retries < t.retryLimit) :
    (processTaskUpdate s .Failed).2.taskReloads = 1 ∧
      (processTaskUpdate s .Failed).2.taskCreates = 0 ∧
      (processTaskUpdate s .Failed).2.events =
        [.task t.taskReferenceName t.taskType .Failed,
         .task t.taskReferenceName t.taskType .Scheduled] ∧
      (processTaskUpdate s .Failed).2.dispatches =
        [{ taskReferenceName := t.taskReferenceName, taskType := t.taskType,
           status := .Scheduled }] ∧
      (processTaskUpdate s .Failed).1.current =
        some { t with
          taskId := s.nextTaskId, retries := t.retries + 1,
          status := .Scheduled } := by
  simp [processTaskUpdate, hcur, hlegal, failTask, hretry]

/-- C2 witness: the statement evaluated with a concrete Inprogress `t3`
(retries 0 of limit 3) as the live task. -/
theorem C2_task_retry_reload_witness :
    (processTaskUpdate (engineStateAt .Failed [] 0
        (inprogressTask 1 "t3" "t3" .Task 0 3) [] [] 5) .Failed).2.taskReloads = 1 ∧
      (processTaskUpdate (engineStateAt .Failed [] 0
        (inprogressTask 1 "t3" "t3" .Task 0 3) [] [] 5) .Failed).2.taskCreates = 0 ∧
      (processTaskUpdate (engineStateAt .Failed [] 0
        (inprogressTask 1 "t3" "t3" .Task 0 3) [] [] 5) .Failed).2.events =
        [.task (inprogressTask 1 "t3" "t3" .Task 0 3).taskReferenceName
           (inprogressTask 1 "t3" "t3" .Task 0 3).taskType .Failed,
         .task (inprogressTask 1 "t3" "t3" .Task 0 3).taskReferenceName
           (inprogressTask 1 "t3" "t3" .Task 0 3).taskType .Scheduled] ∧
      (processTaskUpdate (engineStateAt .Failed [] 0
        (inprogressTask 1 "t3" "t3" .Task 0 3) [] [] 5) .Failed).2.dispatches =
        [{ taskReferenceName := (inprogressTask 1 "t3" "t3" .Task 0 3).taskReferenceName,
           taskType := (inprogressTask 1 "t3" "t3" .Task 0 3).taskType,
           status := .Scheduled }] ∧
      (processTaskUpdate (engineStateAt .Failed [] 0
        (inprogressTask 1 "t3" "t3" .Task 0 3) [] [] 5) .Failed).1.current =
        some { inprogressTask 1 "t3" "t3" .Task 0 3 with
          taskId := (engineStateAt .Failed [] 0
            (inprogressTask 1 "t3" "t3" .Task 0 3) [] [] 5).nextTaskId,
          retries := (inprogressTask 1 "t3" "t3" .Task 0 3).retries + 1,
          status := .Scheduled } :=
  C2_task_retry_reload
    (engineStateAt .Failed [] 0 (inprogressTask 1 "t3" "t3" .Task 0 3) [] [] 5)
    (inprogressTask 1 "t3" "t3" .Task 0 3) rfl (by decide) (by decide)

/-- C3: with `failureStrategy = Failed` and a task of retry limit 3, four
consecutive worker failures give three reloads; after the 4th failure
nothing is dispatched, the emitted events are exactly TASK Failed, WORKFLOW
Failed, TRANSACTION Failed, and the workflow instance and transaction are
stored Failed. -/
theorem C3_retries_exhausted_failed_strategy (dts : List TaskDefn)
    (ni k tid : Nat) (done : List TaskInst)
    (arch : List (WorkflowTypes × WorkflowStates))
    (tname tref : String) (tty : TaskTypes) :
    (failRound (engineStateAt .Failed dts ni
        (scheduledTask tid tname tref tty 0 3) done arch k)).2.taskReloads = 1 ∧
    (failRound (failRound (engineStateAt .Failed dts ni
        (scheduledTask tid tname tref tty 0 3) done arch k)).1).2.taskReloads = 1 ∧
    (failRound (failRound (failRound (engineStateAt .Failed dts ni
        (scheduledTask tid tname tref tty 0 3) done arch k)).1).1).2.taskReloads = 1 ∧
    (failRound (failRound (failRound (failRound (engineStateAt .Failed dts ni
        (scheduledTask tid tname tref tty 0 3)
          done arch k)).1).1).1).2.dispatches = [] ∧
    (failRound (failRound (failRound (failRound (engineStateAt .Failed dts ni
        (scheduledTask tid tname tref tty 0 3) done arch k)).1).1).1).2.events =
      [.task tref tty .Failed, .workflow .Workflow .Failed,
       .transaction .Failed] ∧
    (failRound (failRound (failRound (failRound (engineStateAt .Failed dts ni
        (scheduledTask tid tname tref tty 0 3)
          done arch k)).1).1).1).1.wfStatus = .Failed ∧
    (failRound (failRound (failRound (failRound (engineStateAt .Failed dts ni
        (scheduledTask tid tname tref tty 0 3)
          done arch k)).1).1).1).1.txStatus = .Failed :=
  ⟨rfl, rfl, rfl, rfl, rfl, rfl, rfl⟩

/-- Completing every remaining task of a Running CompensateWorkflow, one
Completed update per scheduled task, ends with the transaction
Compensated. -/
theorem runCompleted_compensate (rest : List TaskDefn) :
    ∀ (s : EngineState) (c : TaskInst),
      s.wfType = .CompensateWorkflow →
      s.current = some c →
      c.status = .Scheduled →
      s.defTasks.drop s.nextIdx = rest →
      (runCompleted s (rest.length + 1)).txStatus = .Compensated := by
  induction rest with
  | nil =>
      intro s c hw hc hst hdrop
      have hidx : s.defTasks[s.nextIdx]? = none := by
        have h0 : (s.defTasks.drop s.nextIdx)[0]? = (([] : List TaskDefn))[0]? := by
          rw [hdrop]
        rw [List.getElem?_drop] at h0
        simpa using h0
      simp [runCompleted, processTaskUpdate, taskNextStates, hc, hst, completeTask, hidx, hw]
  | cons d rest2 ih =>
      intro s c hw hc hst hdrop
      have hidx : s.defTasks[s.nextIdx]? = some d := by
        have h0 : (s.defTasks.drop s.nextIdx)[0]? = (d :: rest2)[0]? := by
          rw [hdrop]
        rw [List.getElem?_drop] at h0
        simpa using h0
      have hstep : (processTaskUpdate s .Completed).1 =
          { s with
            current := some (mkScheduled d s.nextTaskId),
            done := s.done ++ [{ c with status := .Completed }],
            nextIdx := s.nextIdx + 1,
            nextTaskId := s.nextTaskId + 1 } := by
        simp [processTaskUpdate, taskNextStates, hc, hst, completeTask, hidx]
      show (runCompleted s (rest2.length + 1 + 1)).txStatus = .Compensated
      rw [runCompleted, hstep]
      exact ih _ (mkScheduled d s.nextTaskId) hw rfl rfl
        (by
          have h1 : s.defTasks.drop (s.nextIdx + 1) =
              (s.defTasks.drop s.nextIdx).tail := (List.tail_drop _ _).symm
          rw [h1, hdrop]
          rfl)

/-- C1: when a task of a Running workflow with `failureStrategy =
Compensate` exhausts its retries on a Failed report, the engine marks that
workflow Failed (archived with status Failed, WORKFLOW Failed event),
creates exactly one new workflow instance of type CompensateWorkflow whose
task list is one Compensate task per previously Completed task of the
failed workflow in reverse completion order, and completing every one of
those Compensate tasks makes the transaction Compensated. -/
theorem C1_compensate_synthesis (dts : List TaskDefn) (ni k tid r L : Nat)
    (done : List TaskInst) (arch : List (WorkflowTypes × WorkflowStates))
    (tname tref : String) (tty : TaskTypes) (hexh : ¬ r < L) :
    (processTaskUpdate (engineStateAt .Compensate dts ni
        (inprogressTask tid tname tref tty r L) done arch k) .Failed).1.archived =
        arch ++ [(.Workflow, .Failed)] ∧
    (processTaskUpdate (engineStateAt .Compensate dts ni
        (inprogressTask tid tname tref tty r L) done arch k)
        .Failed).2.workflowCreates = 1 ∧
    EventRec.workflow .Workflow .Failed ∈
      (processTaskUpdate (engineStateAt .Compensate dts ni
        (inprogressTask tid tname tref tty r L) done arch k) .Failed).2.events ∧
    (processTaskUpdate (engineStateAt .Compensate dts ni
        (inprogressTask tid tname tref tty r L) done arch k) .Failed).1.wfType =
      .CompensateWorkflow ∧
    (processTaskUpdate (engineStateAt .Compensate dts ni
        (inprogressTask tid tname tref tty r L) done arch k) .Failed).1.defTasks =
      ((done.filter (fun d => d.status = .Completed)).reverse).map
        compensateDefnOf ∧
    (∀ d ∈ (processTaskUpdate (engineStateAt .Compensate dts ni
        (inprogressTask tid tname tref tty r L) done arch k) .Failed).1.defTasks,
      d.taskType = .Compensate) ∧
    (runCompleted
        (processTaskUpdate (engineStateAt .Compensate dts ni
          (inprogressTask tid tname tref tty r L) done arch k) .Failed).1
        (processTaskUpdate (engineStateAt .Compensate dts ni
          (inprogressTask tid tname tref tty r L) done arch k)
          .Failed).1.defTasks.length).txStatus = .Compensated := by
  rcases hcomp : ((done.filter (fun d => d.status = .Completed)).reverse).map
      compensateDefnOf with _ | ⟨d, rest⟩
  · have hres : (processTaskUpdate (engineStateAt .Compensate dts ni
        (inprogressTask tid tname tref tty r L) done arch k) .Failed).1 =
        { txStatus := .Compensated, wfType := .CompensateWorkflow,
          wfStatus := .Completed, failureStrategy := .Compensate,
          defTasks := [], nextIdx := 0, current := none, done := [],
          archived := arch ++ [(.Workflow, .Failed)], nextTaskId := k } := by
      simp [processTaskUpdate, engineStateAt, inprogressTask, taskNextStates,
        failTask, hexh, hcomp]
    refine ⟨by rw [hres], ?_, ?_, by rw [hres], by rw [hres, hcomp], ?_, ?_⟩
    · simp [processTaskUpdate, engineStateAt, inprogressTask, taskNextStates,
        failTask, hexh, hcomp]
    · simp [processTaskUpdate, engineStateAt, inprogressTask, taskNextStates,
        failTask, hexh, hcomp]
    · rw [hres]
      intro x hx
      cases hx
    · rw [hres]
      rfl
  · have hres : (processTaskUpdate (engineStateAt .Compensate dts ni
        (inprogressTask tid tname tref tty r L) done arch k) .Failed).1 =
        { txStatus := .Running, wfType := .CompensateWorkflow,
          wfStatus := .Running, failureStrategy := .Compensate,
          defTasks := d :: rest, nextIdx := 1,
          current := some (mkScheduled d k), done := [],
          archived := arch ++ [(.Workflow, .Failed)], nextTaskId := k + 1 } := by
      simp [processTaskUpdate, engineStateAt, inprogressTask, taskNextStates,
        failTask, hexh, hcomp]
    refine ⟨by rw [hres], ?_, ?_, by rw [hres], by rw [hres, hcomp], ?_, ?_⟩
    · simp [processTaskUpdate, engineStateAt, inprogressTask, taskNextStates,
        failTask, hexh, hcomp]
    · simp [processTaskUpdate, engineStateAt, inprogressTask, taskNextStates,
        failTask, hexh, hcomp]
    · rw [hres]
      intro x hx
      have hx2 : x ∈ ((done.filter (fun d => d.status = .Completed)).reverse).map
          compensateDefnOf := by
        rw [hcomp]
        exact hx
      obtain ⟨y, _, hxy⟩ := List.mem_map.mp hx2
      rw [← hxy]
      rfl
    · rw [hres]
      show (runCompleted _ ((d :: rest).length)).txStatus = .Compensated
      rw [List.length_cons]
      exact runCompleted_compensate rest _ (mkScheduled d k) rfl rfl rfl rfl

/-- C1 witness: the statement evaluated for a workflow whose tasks `t1`,
`t2` completed and whose `t3` exhausted its 3 retries. -/
theorem C1_compensate_synthesis_witness :
    (processTaskUpdate (engineStateAt .Compensate [] 3
        (inprogressTask 7 "t3" "t3" .Task 3 3)
        [completedTask 1 "t1" "t1", completedTask 2 "t2" "t2"] [] 10)
        .Failed).1.archived = [] ++ [(.Workflow, .Failed)] ∧
    (processTaskUpdate (engineStateAt .Compensate [] 3
        (inprogressTask 7 "t3" "t3" .Task 3 3)
        [completedTask 1 "t1" "t1", completedTask 2 "t2" "t2"] [] 10)
        .Failed).2.workflowCreates = 1 ∧
    EventRec.workflow .Workflow .Failed ∈
      (processTaskUpdate (engineStateAt .Compensate [] 3
        (inprogressTask 7 "t3" "t3" .Task 3 3)
        [completedTask 1 "t1" "t1", completedTask 2 "t2" "t2"] [] 10)
        .Failed).2.events ∧
    (processTaskUpdate (engineStateAt .Compensate [] 3
        (inprogressTask 7 "t3" "t3" .Task 3 3)
        [completedTask 1 "t1" "t1", completedTask 2 "t2" "t2"] [] 10)
        .Failed).1.wfType = .CompensateWorkflow ∧
    (processTaskUpdate (engineStateAt .Compensate [] 3
        (inprogressTask 7 "t3" "t3" .Task 3 3)
        [completedTask 1 "t1" "t1", completedTask 2 "t2" "t2"] [] 10)
        .Failed).1.defTasks =
      ((([completedTask 1 "t1" "t1", completedTask 2 "t2" "t2"]).filter
          (fun d => d.status = .Completed)).reverse).map compensateDefnOf ∧
    (∀ d ∈ (processTaskUpdate (engineStateAt .Compensate [] 3
        (inprogressTask 7 "t3" "t3" .Task 3 3)
        [completedTask 1 "t1" "t1", completedTask 2 "t2" "t2"] [] 10)
        .Failed).1.defTasks, d.taskType = .Compensate) ∧
    (runCompleted
        (processTaskUpdate (engineStateAt .Compensate [] 3
          (inprogressTask 7 "t3" "t3" .Task 3 3)
          [completedTask 1 "t1" "t1", completedTask 2 "t2" "t2"] [] 10)
          .Failed).1
        (processTaskUpdate (engineStateAt .Compensate [] 3
          (inprogressTask 7 "t3" "t3" .Task 3 3)
          [completedTask 1 "t1" "t1", completedTask 2 "t2" "t2"] [] 10)
          .Failed).1.defTasks.length).txStatus = .Compensated :=
  C1_compensate_synthesis [] 3 10 7 3 3
    [completedTask 1 "t1" "t1", completedTask 2 "t2" "t2"] []
    "t3" "t3" .Task (by decide)
